import Mathlib

/-!
Verification of the platformer mini-game shell of the focus/break timer app.

The definitions below are shallow embeddings of the TypeScript source:
  * `runGameLoop`, `renderGame`          — src/components/PlatformerGame.tsx
  * `drawCollectibles` (two copies)      — src/utils/gameRenderUtils/collectibleRenderer.ts
  * `handleReturn`, the mount effect     — src/components/PlatformerGame.tsx
  * the timer hook operations            — src/hooks/useTimer.tsx
  * the break-duration dialog handlers   — src/components/BreakDurationDialog.tsx

JavaScript numbers are modelled by `ℚ` (the source only performs field
operations, comparisons, `Math.floor`-style `%`, `Math.min`/`Math.max` on
them), machine integers by `ℤ`/`ℕ`, and fallible or optional references by
`Option`.
-/

/-! ### Game loop driver (PlatformerGame.tsx, lines 141-173) -/

/-- `const targetFPS = 60; const frameInterval = 1000 / targetFPS;` -/
def frameInterval : ℚ := 1000 / 60

/-- JavaScript `a % b` for `0 < b` and `0 ≤ a` (the only use site has
`frameInterval < elapsed`): `a - b * Math.trunc(a / b)`, which for
non-negative operands equals `a - b * ⌊a / b⌋`. -/
def jsMod (a b : ℚ) : ℚ := a - b * (⌊a / b⌋ : ℤ)

/-- The mutable closure state of the `runGameLoop` callback: the
`lastTimestamp` variable and the `gameState.gameOver` flag it reads.
`runGameLoop` itself never writes `gameOver`; only the game engine's
`updateGame`/`resetGame` do. -/
structure GameLoopState where
  lastTimestamp : ℚ
  gameOver : Bool
deriving DecidableEq, Repr

/-- Observable effects of one invocation of the loop callback: how many times
`updateGame` ran (a simulation tick) and how many times `renderGame` ran. -/
structure LoopEffects where
  ticks : Nat
  renders : Nat
deriving DecidableEq, Repr

/-- `if (!lastTimestamp) lastTimestamp = timestamp;` — `0` is falsy. -/
def effectiveLast (s : GameLoopState) (t : ℚ) : ℚ :=
  if s.lastTimestamp = 0 then t else s.lastTimestamp

/-- `const elapsed = timestamp - lastTimestamp;` (after the falsy reset). -/
def elapsedAt (s : GameLoopState) (t : ℚ) : ℚ := t - effectiveLast s t

/-- One invocation of `runGameLoop(timestamp)` (PlatformerGame.tsx 146-163):

    if (!lastTimestamp) lastTimestamp = timestamp;
    const elapsed = timestamp - lastTimestamp;
    if (elapsed > frameInterval) {
      lastTimestamp = timestamp - (elapsed % frameInterval);
      if (!gameState.gameOver) updateGame();
      renderGame(ctx);
    }

Rescheduling via `requestAnimationFrame` does not change this state. -/
def runGameLoop (s : GameLoopState) (t : ℚ) : GameLoopState × LoopEffects :=
  let last := effectiveLast s t
  let elapsed := t - last
  if frameInterval < elapsed then
    ({ s with lastTimestamp := t - jsMod elapsed frameInterval },
     { ticks := if s.gameOver then 0 else 1, renders := 1 })
  else
    ({ s with lastTimestamp := last }, { ticks := 0, renders := 0 })

/-- The draw calls `renderGame` can issue, in source order. -/
inductive DrawCall
  | background
  | platforms
  | obstacles
  | collectibles
  | character
  | ui
  | gameOverOverlay
deriving DecidableEq, Repr

/-- `renderGame` (PlatformerGame.tsx 176-190): fixed draw order, the
game-over overlay drawn last and only when `gameState.gameOver`. -/
def renderGame (gameOver : Bool) : List DrawCall :=
  [DrawCall.background, DrawCall.platforms, DrawCall.obstacles,
   DrawCall.collectibles, DrawCall.character, DrawCall.ui] ++
    (if gameOver then [DrawCall.gameOverOverlay] else [])

/-- A sequence of loop-callback invocations at the given timestamps;
returns the final closure state and the total number of simulation ticks. -/
def runLoopSeq (s : GameLoopState) : List ℚ → GameLoopState × Nat
  | [] => (s, 0)
  | t :: ts =>
    let r := runGameLoop s t
    let rest := runLoopSeq r.1 ts
    (rest.1, r.2.ticks + rest.2)

theorem runGameLoop_gameOver_eq (s : GameLoopState) (t : ℚ) :
    (runGameLoop s t).1.gameOver = s.gameOver := by
  unfold runGameLoop
  dsimp only
  split <;> rfl

theorem runGameLoop_no_gate (s : GameLoopState) (t : ℚ)
    (h : elapsedAt s t ≤ frameInterval) :
    runGameLoop s t =
      ({ s with lastTimestamp := effectiveLast s t }, { ticks := 0, renders := 0 }) := by
  unfold runGameLoop
  dsimp only
  rw [if_neg (not_lt.mpr (by simpa [elapsedAt] using h))]

theorem runGameLoop_gate (s : GameLoopState) (t : ℚ)
    (h : frameInterval < elapsedAt s t) :
    runGameLoop s t =
      ({ s with lastTimestamp := t - jsMod (elapsedAt s t) frameInterval },
       { ticks := if s.gameOver then 0 else 1, renders := 1 }) := by
  unfold runGameLoop
  dsimp only
  rw [if_pos (by simpa [elapsedAt] using h)]
  simp [elapsedAt]

theorem runLoopSeq_no_ticks (ts : List ℚ) (s : GameLoopState)
    (h0 : s.lastTimestamp ≠ 0)
    (h : ∀ u ∈ ts, u - s.lastTimestamp ≤ frameInterval) :
    (runLoopSeq s ts).2 = 0 := by
  induction ts generalizing s with
  | nil => rfl
  | cons t ts ih =>
    have hel : elapsedAt s t ≤ frameInterval := by
      simp only [elapsedAt, effectiveLast, if_neg h0]
      exact h t (List.mem_cons_self t ts)
    have hstep := runGameLoop_no_gate s t hel
    simp only [runLoopSeq, hstep]
    have hlast : ({ s with lastTimestamp := effectiveLast s t } :
        GameLoopState).lastTimestamp = s.lastTimestamp := by
      simp [effectiveLast, if_neg h0]
    rw [ih _ (by rw [hlast]; exact h0)
      (by intro u hu; rw [hlast]; exact h u (List.mem_cons_of_mem _ hu))]

theorem runLoopSeq_gameOver_no_ticks (ts : List ℚ) (s : GameLoopState)
    (hgo : s.gameOver = true) :
    (runLoopSeq s ts).2 = 0 := by
  induction ts generalizing s with
  | nil => rfl
  | cons t ts ih =>
    have hstep : (runGameLoop s t).2.ticks = 0 := by
      unfold runGameLoop
      dsimp only
      split <;> simp [hgo]
    simp only [runLoopSeq, hstep]
    rw [ih _ (by rw [runGameLoop_gameOver_eq]; exact hgo)]

/-- **C1.** Per invocation of `runGameLoop` with timestamp `t`: at most one
simulation tick occurs; a tick occurs only when the elapsed time since the
stored timestamp exceeds `frameInterval = 1000/60`; when a tick occurs the
stored timestamp becomes `t - (elapsed % frameInterval)` (remainder carried
over); and invocations whose accumulated elapsed time has not yet exceeded
one frame interval execute zero ticks and leave the stored timestamp
untouched, so a run of such consecutive invocations accumulates zero ticks. -/
theorem runGameLoop_tick_throttle (s : GameLoopState) (t : ℚ) :
    (runGameLoop s t).2.ticks ≤ 1
    ∧ (0 < (runGameLoop s t).2.ticks → frameInterval < elapsedAt s t)
    ∧ (0 < (runGameLoop s t).2.ticks →
        (runGameLoop s t).1.lastTimestamp = t - jsMod (elapsedAt s t) frameInterval)
    ∧ (elapsedAt s t ≤ frameInterval →
        (runGameLoop s t).2.ticks = 0
        ∧ (runGameLoop s t).1.lastTimestamp = effectiveLast s t)
    ∧ (∀ ts : List ℚ, s.lastTimestamp ≠ 0 →
        (∀ u ∈ ts, u - s.lastTimestamp ≤ frameInterval) →
        (runLoopSeq s ts).2 = 0) := by
  refine ⟨?_, ?_, ?_, ?_, ?_⟩
  · by_cases h : frameInterval < elapsedAt s t
    · rw [runGameLoop_gate s t h]
      split <;> simp
    · rw [runGameLoop_no_gate s t (not_lt.mp h)]
      exact Nat.zero_le 1
  · intro hpos
    by_contra h
    rw [runGameLoop_no_gate s t (not_lt.mp h)] at hpos
    exact absurd hpos (by simp)
  · intro hpos
    by_cases h : frameInterval < elapsedAt s t
    · rw [runGameLoop_gate s t h]
    · rw [runGameLoop_no_gate s t (not_lt.mp h)] at hpos
      exact absurd hpos (by simp)
  · intro h
    rw [runGameLoop_no_gate s t h]
    exact ⟨rfl, rfl⟩
  · intro ts h0 h
    exact runLoopSeq_no_ticks ts s h0 h

/-- Witness for C1 at concrete inputs: with stored timestamp 5 and `t = 30`
(elapsed `25 > 1000/60`) exactly one tick occurs and the stored timestamp
becomes `30 - 25 % (1000/60)`; and two further invocations within one frame
interval of a stored timestamp produce zero ticks. -/
theorem runGameLoop_tick_throttle_witness :
    (runGameLoop ⟨5, false⟩ 30).2.ticks = 1
    ∧ (runGameLoop ⟨5, false⟩ 30).1.lastTimestamp =
        30 - jsMod (elapsedAt ⟨5, false⟩ 30) frameInterval
    ∧ (runLoopSeq ⟨5, false⟩ [10, 15]).2 = 0 := by
  have h := runGameLoop_tick_throttle ⟨5, false⟩ 30
  have hgate : frameInterval < elapsedAt ⟨5, false⟩ 30 := by
    norm_num [elapsedAt, effectiveLast, frameInterval]
  have h1 : (runGameLoop ⟨5, false⟩ 30).2.ticks = 1 := by
    rw [runGameLoop_gate _ _ hgate]
    rfl
  refine ⟨h1, h.2.2.1 (by rw [h1]; norm_num), ?_⟩
  exact h.2.2.2.2 [10, 15] (by norm_num)
    (by intro u hu; simp only [List.mem_cons] at hu
        rcases hu with rfl | hu
        · norm_num [frameInterval]
        · rcases hu with rfl | hu
          · norm_num [frameInterval]
          · cases hu)

/-- **C2.** In every loop iteration executed while `gameState.gameOver` is
true, `updateGame` is not invoked (zero ticks, over a single invocation and
over any whole sequence of invocations, so no tick can change character
position, velocity or score until an explicit reset), while in every
iteration passing the frame-interval gate `renderGame` is still invoked
exactly once and its draw list ends with the game-over overlay. -/
theorem gameOver_skips_update_not_render (s : GameLoopState) (t : ℚ)
    (hgo : s.gameOver = true) :
    (runGameLoop s t).2.ticks = 0
    ∧ (∀ ts : List ℚ, (runLoopSeq s ts).2 = 0)
    ∧ (frameInterval < elapsedAt s t →
        (runGameLoop s t).2.renders = 1
        ∧ DrawCall.gameOverOverlay ∈ renderGame s.gameOver
        ∧ (renderGame s.gameOver).getLast? = some DrawCall.gameOverOverlay) := by
  refine ⟨?_, fun ts => runLoopSeq_gameOver_no_ticks ts s hgo, fun h => ?_⟩
  · unfold runGameLoop
    dsimp only
    split <;> simp [hgo]
  · rw [runGameLoop_gate s t h, hgo]
    exact ⟨rfl, by simp [renderGame], by simp [renderGame]⟩

/-- Witness for C2: with `gameOver = true`, stored timestamp 5 and `t = 30`
(the gate passes), the invocation runs zero ticks but one render, a whole
sequence of invocations runs zero ticks, and the overlay is drawn last. -/
theorem gameOver_skips_update_not_render_witness :
    (runGameLoop ⟨5, true⟩ 30).2.ticks = 0
    ∧ (runLoopSeq ⟨5, true⟩ [30, 60, 90]).2 = 0
    ∧ (runGameLoop ⟨5, true⟩ 30).2.renders = 1
    ∧ (renderGame true).getLast? = some DrawCall.gameOverOverlay := by
  have h := gameOver_skips_update_not_render ⟨5, true⟩ 30 rfl
  have hgate : frameInterval < elapsedAt ⟨5, true⟩ 30 := by
    norm_num [elapsedAt, effectiveLast, frameInterval]
  exact ⟨h.1, h.2.1 [30, 60, 90], (h.2.2 hgate).1, (h.2.2 hgate).2.2⟩

/-- **C3 counterexample.** The claim says rendering executes exactly once per
invocation of the loop callback, tick or no tick.  It is false: an
invocation whose elapsed time does not exceed the frame interval (stored
timestamp 10, `t = 12`, elapsed `2 ≤ 1000/60`) executes zero renders. -/
theorem render_once_per_invocation_counterexample :
    (runGameLoop ⟨10, false⟩ 12).2.renders ≠ 1 := by
  have h : elapsedAt (⟨10, false⟩ : GameLoopState) 12 ≤ frameInterval := by
    norm_num [elapsedAt, effectiveLast, frameInterval]
  rw [runGameLoop_no_gate _ _ h]
  simp

/-- **C3 (amended).** `renderGame` executes exactly once in every invocation
of the loop callback whose elapsed time exceeds the frame interval — whether
or not a simulation tick occurred in that invocation (in particular it still
runs when `gameOver` suppresses the tick) — and zero times in every other
invocation. -/
theorem render_once_per_gated_invocation (s : GameLoopState) (t : ℚ) :
    (runGameLoop s t).2.renders =
      (if frameInterval < elapsedAt s t then 1 else 0)
    ∧ (s.gameOver = true → frameInterval < elapsedAt s t →
        (runGameLoop s t).2.ticks = 0 ∧ (runGameLoop s t).2.renders = 1) := by
  constructor
  · by_cases h : frameInterval < elapsedAt s t
    · rw [runGameLoop_gate s t h, if_pos h]
    · rw [runGameLoop_no_gate s t (not_lt.mp h), if_neg h]
  · intro hgo h
    rw [runGameLoop_gate s t h, hgo]
    exact ⟨rfl, rfl⟩

/-- Witness for C3's amended theorem: at stored timestamp 5 and `t = 30` the
gate passes and one render occurs even though `gameOver = true` makes the
tick count zero; at `t = 12`, stored timestamp 10, no render occurs. -/
theorem render_once_per_gated_invocation_witness :
    (runGameLoop ⟨5, true⟩ 30).2.renders = 1
    ∧ (runGameLoop ⟨5, true⟩ 30).2.ticks = 0
    ∧ (runGameLoop ⟨10, false⟩ 12).2.renders = 0 := by
  have hgate : frameInterval < elapsedAt ⟨5, true⟩ 30 := by
    norm_num [elapsedAt, effectiveLast, frameInterval]
  have h1 := (render_once_per_gated_invocation ⟨5, true⟩ 30).2 rfl hgate
  have h2 := (render_once_per_gated_invocation ⟨10, false⟩ 12).1
  have hno : ¬ frameInterval < elapsedAt (⟨10, false⟩ : GameLoopState) 12 := by
    norm_num [elapsedAt, effectiveLast, frameInterval]
  exact ⟨h1.2, h1.1, by rw [h2, if_neg hno]⟩

/-! ### Collectible renderer
(src/utils/gameRenderUtils/collectibleRenderer.ts, and a second copy of the
same module that loads its images from `/assets/coin-<i>.png`). -/

/-- `Coin` fields used by `drawCollectibles` (from `@/types/gameTypes`). -/
structure Coin where
  x : ℚ
  y : ℚ
  width : ℚ
  height : ℚ
  collected : Bool
deriving DecidableEq, Repr

/-- `coinImages.length`: both modules push exactly four images. -/
def coinVariantCount : Nat := 4

/-- The culling test of `drawCollectibles`:
`!coin.collected && adjustedX < 700 && adjustedX + coin.width > -20`
with `adjustedX = coin.x - cameraOffsetX`. -/
def coinDrawGate (cameraOffsetX : ℚ) (coin : Coin) : Bool :=
  !coin.collected
    && decide (coin.x - cameraOffsetX < 700)
    && decide (-20 < coin.x - cameraOffsetX + coin.width)

/-- `drawCollectibles` (collectibleRenderer.ts 29-92) reduced to its
observable selections: for each coin the `forEach` index `i` and the variant
`imageIndex = i % coinImages.length` whose image is drawn inside the circular
clip.  The trailing `i++` in the source mutates only the callback's local
copy of the index and is therefore dropped; the `.complete` guard only
decides whether the already-selected image is painted. -/
def drawCollectibles (coins : List Coin) (cameraOffsetX : ℚ) : List (Nat × Nat) :=
  coins.enum.filterMap fun p =>
    if coinDrawGate cameraOffsetX p.2 then some (p.1, p.1 % coinVariantCount) else none

/-- The second `drawCollectibles` copy (the unnamed duplicate module): the
loop body is textually identical apart from the image sources and the
missing `.complete` guard, neither of which affects the variant selection. -/
def drawCollectiblesAssets (coins : List Coin) (cameraOffsetX : ℚ) : List (Nat × Nat) :=
  coins.enum.filterMap fun p =>
    if coinDrawGate cameraOffsetX p.2 then some (p.1, p.1 % coinVariantCount) else none

theorem mem_drawCollectibles_iff (coins : List Coin) (cam : ℚ) (i v : Nat) :
    (i, v) ∈ drawCollectibles coins cam ↔
      ∃ coin : Coin, coins.get? i = some coin
        ∧ coin.collected = false
        ∧ coin.x - cam < 700
        ∧ -20 < coin.x - cam + coin.width
        ∧ v = i % coinVariantCount := by
  unfold drawCollectibles
  rw [List.mem_filterMap]
  constructor
  · rintro ⟨⟨j, coin⟩, hmem, hif⟩
    by_cases hg : coinDrawGate cam coin
    · rw [if_pos hg, Option.some_inj] at hif
      injection hif with h1 h2
      subst h1
      subst h2
      refine ⟨coin, List.mem_enum_iff_get?.mp hmem, ?_⟩
      simp only [coinDrawGate, Bool.and_eq_true, Bool.not_eq_true', decide_eq_true_eq] at hg
      exact ⟨hg.1.1, hg.1.2, hg.2, rfl⟩
    · rw [if_neg hg] at hif
      exact absurd hif (by simp)
  · rintro ⟨coin, hget, hcol, hx, hw, rfl⟩
    refine ⟨(i, coin), List.mem_enum_iff_get?.mpr hget, ?_⟩
    rw [if_pos]
    simp only [coinDrawGate, Bool.and_eq_true, Bool.not_eq_true', decide_eq_true_eq]
    exact ⟨⟨hcol, hx⟩, hw⟩

/-- **C4.** Every coin actually drawn by `drawCollectibles` — the coin at
array position `i` — is drawn with visual variant `i % 4` (`coinImages`
holds 4 variants): a pure deterministic function of the coin's index, and
the two `drawCollectibles` implementations select identically. -/
theorem drawCollectibles_variant_is_index_mod (coins : List Coin) (cam : ℚ) :
    (∀ p ∈ drawCollectibles coins cam, p.2 = p.1 % coinVariantCount)
    ∧ drawCollectibles coins cam = drawCollectiblesAssets coins cam := by
  refine ⟨?_, rfl⟩
  rintro ⟨i, v⟩ hmem
  obtain ⟨_, _, _, _, _, hv⟩ := (mem_drawCollectibles_iff coins cam i v).mp hmem
  exact hv

/-- Witness for C4: a concrete six-coin row in which the fifth coin is
collected renders the remaining coins with variants `i % 4`, wrapping at the
fifth position. -/
theorem drawCollectibles_variant_is_index_mod_witness :
    drawCollectibles
      [⟨0, 0, 20, 20, false⟩, ⟨30, 0, 20, 20, false⟩, ⟨60, 0, 20, 20, false⟩,
       ⟨90, 0, 20, 20, false⟩, ⟨120, 0, 20, 20, true⟩, ⟨150, 0, 20, 20, false⟩] 0 =
      [(0, 0), (1, 1), (2, 2), (3, 3), (5, 1)]
    ∧ (5, 1) ∈ drawCollectibles
      [⟨0, 0, 20, 20, false⟩, ⟨30, 0, 20, 20, false⟩, ⟨60, 0, 20, 20, false⟩,
       ⟨90, 0, 20, 20, false⟩, ⟨120, 0, 20, 20, true⟩, ⟨150, 0, 20, 20, false⟩] 0
    ∧ (1 : Nat) = 5 % coinVariantCount := by
  have hlist : drawCollectibles
      [⟨0, 0, 20, 20, false⟩, ⟨30, 0, 20, 20, false⟩, ⟨60, 0, 20, 20, false⟩,
       ⟨90, 0, 20, 20, false⟩, ⟨120, 0, 20, 20, true⟩, ⟨150, 0, 20, 20, false⟩] 0 =
      [(0, 0), (1, 1), (2, 2), (3, 3), (5, 1)] := by
    simp only [drawCollectibles, List.enum, coinDrawGate, coinVariantCount]
    norm_num [List.filterMap, List.enumFrom]
  have hmem : (5, 1) ∈ drawCollectibles
      [⟨0, 0, 20, 20, false⟩, ⟨30, 0, 20, 20, false⟩, ⟨60, 0, 20, 20, false⟩,
       ⟨90, 0, 20, 20, false⟩, ⟨120, 0, 20, 20, true⟩, ⟨150, 0, 20, 20, false⟩] 0 := by
    rw [hlist]; simp
  refine ⟨hlist, hmem, ?_⟩
  have h := (drawCollectibles_variant_is_index_mod
    [⟨0, 0, 20, 20, false⟩, ⟨30, 0, 20, 20, false⟩, ⟨60, 0, 20, 20, false⟩,
     ⟨90, 0, 20, 20, false⟩, ⟨120, 0, 20, 20, true⟩, ⟨150, 0, 20, 20, false⟩] 0).1
  exact h (5, 1) hmem

/-- Stated from the spec's words for C5 (refinement target): the coin's
camera-adjusted horizontal extent intersects the viewport `(0, 700)`
extended by a fixed width margin `m` on each side, i.e. meets the open
window `(-m, 700 + m)`. -/
def specVisibleWithMargin (m : ℚ) (coin : Coin) (cam : ℚ) : Prop :=
  coin.x - cam < 700 + m ∧ -m < coin.x - cam + coin.width

/-- **C5 counterexample.** With the margin the code actually uses on the
left (20px) applied to each side as the claim demands, the claim fails: the
uncollected coin at `x = 705` (camera at 0, width 20) has its extent
`(705, 725)` inside the widened viewport `(-20, 720)`, yet `drawCollectibles`
culls it because the code compares the coin's left edge against the bare
viewport width (`adjustedX < 700`, no right margin). -/
theorem drawCollectibles_margin_counterexample :
    (⟨705, 0, 20, 20, false⟩ : Coin).collected = false
    ∧ specVisibleWithMargin 20 ⟨705, 0, 20, 20, false⟩ 0
    ∧ drawCollectibles [⟨705, 0, 20, 20, false⟩] 0 = [] := by
  refine ⟨rfl, ⟨by norm_num, by norm_num⟩, ?_⟩
  simp only [drawCollectibles, List.enum, List.enumFrom, List.filterMap, coinDrawGate]
  norm_num

/-- **C5 (amended).** `drawCollectibles` draws the coin at position `i` if
and only if it is not collected and its camera-adjusted open horizontal
extent meets the open window from `-20` to `700`: a fixed 20px margin beyond
the left viewport edge only, while on the right the coin's left edge is
compared against the 700px viewport width (zero right margin).  Culling
never hides a non-collected coin whose extent meets that window. -/
theorem drawCollectibles_culling_exact (coins : List Coin) (cam : ℚ) (i : Nat) :
    (∃ v, (i, v) ∈ drawCollectibles coins cam) ↔
      ∃ coin : Coin, coins.get? i = some coin
        ∧ coin.collected = false
        ∧ coin.x - cam < 700
        ∧ -20 < coin.x - cam + coin.width := by
  constructor
  · rintro ⟨v, hv⟩
    obtain ⟨coin, hget, hcol, hx, hw, _⟩ := (mem_drawCollectibles_iff coins cam i v).mp hv
    exact ⟨coin, hget, hcol, hx, hw⟩
  · rintro ⟨coin, hget, hcol, hx, hw⟩
    exact ⟨i % coinVariantCount,
      (mem_drawCollectibles_iff coins cam i (i % coinVariantCount)).mpr
        ⟨coin, hget, hcol, hx, hw, rfl⟩⟩

/-- Witness for C5's amended theorem: the coin at `x = 690` of width 20
(extent crossing the right viewport edge) is drawn, and the collected coin
at `x = 100` is not. -/
theorem drawCollectibles_culling_exact_witness :
    (∃ v, (0, v) ∈ drawCollectibles [⟨690, 0, 20, 20, false⟩] 0)
    ∧ ¬ (∃ v, (0, v) ∈ drawCollectibles [⟨100, 0, 20, 20, true⟩] 0) := by
  constructor
  · exact (drawCollectibles_culling_exact [⟨690, 0, 20, 20, false⟩] 0 0).mpr
      ⟨⟨690, 0, 20, 20, false⟩, rfl, rfl, by norm_num, by norm_num⟩
  · intro hv
    obtain ⟨coin, hget, hcol, _, _⟩ :=
      (drawCollectibles_culling_exact [⟨100, 0, 20, 20, true⟩] 0 0).mp hv
    have heq : (⟨100, 0, 20, 20, true⟩ : Coin) = coin := by
      simpa using hget
    rw [← heq] at hcol
    exact absurd hcol (by simp)

/-! ### Return-to-timer and mount/teardown effects (PlatformerGame.tsx) -/

/-- The observable fields of the `<audio>` element that `handleReturn`
touches. -/
structure AudioElement where
  paused : Bool
  currentTime : ℚ
deriving DecidableEq, Repr

/-- Externally visible calls issued by `handleReturn`, in order. -/
inductive ReturnEvent
  | audioPause
  | audioRewind
  | cancelFrame
  | onReturnCall
deriving DecidableEq, Repr

/-- The refs of `PlatformerGame` that `handleReturn` reads and writes:
`audioRef.current`, the `audioPlaying` React state, and
`gameLoopRef.current` (the pending `requestAnimationFrame` handle). -/
structure GameComponentState where
  audio : Option AudioElement
  audioPlaying : Bool
  gameLoopHandle : Option Nat
deriving DecidableEq, Repr

/-- A simulation tick can only run inside the scheduled animation-frame
callback, so it is executable only while a frame request is pending. -/
def tickExecutable (s : GameComponentState) : Bool :=
  s.gameLoopHandle.isSome

/-- `handleReturn` (PlatformerGame.tsx 192-206):

    if (audioRef.current) { pause(); currentTime = 0; setAudioPlaying(false); }
    if (gameLoopRef.current) { cancelAnimationFrame(...); gameLoopRef.current = null; }
    onReturn();

All three steps run synchronously in this order on the single JS timeline. -/
def handleReturn (s : GameComponentState) : GameComponentState × List ReturnEvent :=
  let step1 : GameComponentState × List ReturnEvent :=
    match s.audio with
    | some _ =>
        ({ s with audio := some { paused := true, currentTime := 0 },
                  audioPlaying := false },
         [ReturnEvent.audioPause, ReturnEvent.audioRewind])
    | none => (s, [])
  let step2 : GameComponentState × List ReturnEvent :=
    match step1.1.gameLoopHandle with
    | some _ => ({ step1.1 with gameLoopHandle := none }, [ReturnEvent.cancelFrame])
    | none => (step1.1, [])
  (step2.1, step1.2 ++ step2.2 ++ [ReturnEvent.onReturnCall])

/-- **C6.** When the user exits via `handleReturn` while an audio element
exists and a frame request is pending, the audio is paused and rewound to 0
and the pending animation-frame request is cancelled, and both happen in the
synchronous event order before `onReturn` is called (which is the last
event); afterwards no frame request is pending, so no simulation tick can
execute after the cancellation. -/
theorem handleReturn_cancels_before_onReturn (s : GameComponentState)
    (a : AudioElement) (h : Nat)
    (haudio : s.audio = some a) (hhandle : s.gameLoopHandle = some h) :
    (handleReturn s).1.audio = some { paused := true, currentTime := 0 }
    ∧ (handleReturn s).1.audioPlaying = false
    ∧ (handleReturn s).1.gameLoopHandle = none
    ∧ (handleReturn s).2 =
        [ReturnEvent.audioPause, ReturnEvent.audioRewind,
         ReturnEvent.cancelFrame, ReturnEvent.onReturnCall]
    ∧ (handleReturn s).2.getLast? = some ReturnEvent.onReturnCall
    ∧ tickExecutable (handleReturn s).1 = false := by
  unfold handleReturn
  rw [haudio]
  dsimp only
  rw [hhandle]
  exact ⟨rfl, rfl, rfl, rfl, rfl, rfl⟩

/-- Witness for C6 at a concrete component state: playing audio at time 42,
frame request 7 pending. -/
theorem handleReturn_cancels_before_onReturn_witness :
    (handleReturn ⟨some ⟨false, 42⟩, true, some 7⟩).1 =
      ⟨some ⟨true, 0⟩, false, none⟩
    ∧ (handleReturn ⟨some ⟨false, 42⟩, true, some 7⟩).2 =
        [ReturnEvent.audioPause, ReturnEvent.audioRewind,
         ReturnEvent.cancelFrame, ReturnEvent.onReturnCall]
    ∧ tickExecutable (handleReturn ⟨some ⟨false, 42⟩, true, some 7⟩).1 = false := by
  have h := handleReturn_cancels_before_onReturn
    ⟨some ⟨false, 42⟩, true, some 7⟩ ⟨false, 42⟩ 7 rfl rfl
  refine ⟨?_, h.2.2.2.1, h.2.2.2.2.2⟩
  have h1 := h.1
  have h2 := h.2.1
  have h3 := h.2.2.1
  cases heq : (handleReturn ⟨some ⟨false, 42⟩, true, some 7⟩).1
  rw [heq] at h1 h2 h3
  simp only at h1 h2 h3
  rw [h1, h2, h3]

/-- The mount effect of `PlatformerGame` (lines 117-129), which has an empty
dependency array:

    useEffect(() => {
      setGameStarted(true); resetGame();
      if (onStart && !timerState.isRunning) onStart();
      return () => { if (onPause && timerState.isRunning) onPause(); };
    }, []);

Because the dependency array is empty the cleanup closure created at mount
is the one React runs at teardown, and it reads the `timerState.isRunning`
value captured at mount; the result of `cleanupInvokesOnPause` therefore
ignores its argument (the teardown-time value). -/
def platformerMountEffect (onStartProvided onPauseProvided isRunningAtMount : Bool) :
    Bool × (Bool → Bool) :=
  (onStartProvided && !isRunningAtMount,
   fun _ => onPauseProvided && isRunningAtMount)

/-- **C7 counterexample.** The claim says `onPause` is invoked iff it was
provided and the timer is running at teardown.  False: if the timer was not
running at mount (the common flow — the mount effect itself then starts it
via `onStart`) but is running at teardown, the cleanup does not invoke
`onPause`, because it closed over the mount-time `timerState.isRunning`. -/
theorem mount_cleanup_onPause_counterexample :
    ((platformerMountEffect true true false).2 true) ≠ (true && true) := by
  intro h
  exact absurd h (by simp [platformerMountEffect])

/-- **C7 (amended).** At teardown the `onPause` callback is invoked iff an
`onPause` callback was provided and the countdown timer was running at the
time the component mounted: the effect's empty dependency array makes its
cleanup close over the mount-time `timerState.isRunning`, so the
teardown-time value is ignored. -/
theorem mount_cleanup_onPause_uses_mount_state
    (onStartProvided onPauseProvided isRunningAtMount isRunningAtTeardown : Bool) :
    (platformerMountEffect onStartProvided onPauseProvided isRunningAtMount).2
        isRunningAtTeardown
      = (onPauseProvided && isRunningAtMount) := rfl

/-! ### Focus/break timer hook (src/hooks/useTimer.tsx) -/

/-- `TimerMode = "focus" | "break"` (from `@/types`). -/
inductive TimerMode
  | focus
  | breakMode
deriving DecidableEq, Repr

/-- `BreakActivity = "game" | "chat" | null`; the `null` case is `Option`. -/
inductive BreakActivity
  | game
  | chat
deriving DecidableEq, Repr

/-- `TimerState` (from `@/types`), as used by `useTimer`. -/
structure TimerState where
  mode : TimerMode
  timeRemaining : ℤ
  isRunning : Bool
  breakActivity : Option BreakActivity
  completed : Bool
deriving DecidableEq, Repr

/-- `TimerSettings`: configured focus/break durations in minutes. -/
structure TimerSettings where
  focusDuration : ℤ
  breakDuration : ℤ
deriving DecidableEq, Repr

/-- Modelled from the spec: `minutesToSeconds` comes from
`src/utils/timerUtils`, which is not among the provided sources; the spec
displays `timeRemaining` as integer seconds for a duration configured in
minutes, so the conversion is multiplication by 60. -/
def minutesToSeconds (m : ℤ) : ℤ := m * 60

/-- The per-mode session length in seconds used throughout the hook. -/
def modeDuration (settings : TimerSettings) : TimerMode → ℤ
  | TimerMode.focus => minutesToSeconds settings.focusDuration
  | TimerMode.breakMode => minutesToSeconds settings.breakDuration

/-- The hook's mutable state: the `timerState` React state and whether a
`setInterval` handle is registered in `intervalRef`. -/
structure TimerHookState where
  timerState : TimerState
  intervalActive : Bool
deriving DecidableEq, Repr

/-- `handleTimerCompletion` (useTimer.tsx 157-190): clears the interval,
flips the mode, reloads the configured duration for the next mode, and
returns a stopped, completed state (the audio/toast/storage side effects are
not part of the returned state). -/
def handleTimerCompletion (settings : TimerSettings) (currentMode : TimerMode) :
    TimerState :=
  let nextMode := match currentMode with
    | TimerMode.focus => TimerMode.breakMode
    | TimerMode.breakMode => TimerMode.focus
  { mode := nextMode
    timeRemaining := modeDuration settings nextMode
    isRunning := false
    breakActivity := none
    completed := true }

/-- The body of the `setInterval` callback installed by `startTimerInterval`
(useTimer.tsx 130-154): hand off to `handleTimerCompletion` when at most one
second remains, otherwise decrement. -/
def intervalTick (settings : TimerSettings) (s : TimerHookState) : TimerHookState :=
  if s.timerState.timeRemaining ≤ 1 then
    { timerState := handleTimerCompletion settings s.timerState.mode
      intervalActive := false }
  else
    { s with timerState :=
        { s.timerState with
            timeRemaining := s.timerState.timeRemaining - 1
            completed := false } }

/-- `resetTimer` (useTimer.tsx 192-213): clear the interval and load the
configured duration for the requested mode. -/
def resetTimer (settings : TimerSettings) (mode : TimerMode) : TimerHookState :=
  { timerState :=
      { mode := mode
        timeRemaining := modeDuration settings mode
        isRunning := false
        breakActivity := none
        completed := false }
    intervalActive := false }

/-- `startTimer` (useTimer.tsx 215-231): no-op while running; reset when the
time is already used up; otherwise mark running and install the interval. -/
def startTimer (settings : TimerSettings) (s : TimerHookState) : TimerHookState :=
  if s.timerState.isRunning then s
  else if s.timerState.timeRemaining ≤ 0 then resetTimer settings s.timerState.mode
  else
    { timerState := { s.timerState with isRunning := true, completed := false }
      intervalActive := true }

/-- `pauseTimer` (useTimer.tsx 233-242): no-op while not running; otherwise
clear the interval and mark not running. -/
def pauseTimer (s : TimerHookState) : TimerHookState :=
  if !s.timerState.isRunning then s
  else
    { timerState := { s.timerState with isRunning := false }
      intervalActive := false }

/-- `loadStoredTimerState` (useTimer.tsx 86-107) once a stored state and a
last-update stamp were found. `elapsedSeconds = ⌊(Date.now() - lastUpdate)/1000⌋`
is taken as a parameter.  For a running stored state the remaining time is
recomputed as `max 0 (stored - elapsed)`; at `0` the code calls
`handleTimerCompletion` but discards its returned state (only its side
effects run), so `timerState` is left as it was; otherwise the recomputed
state is adopted and the interval (re)installed.  A non-running stored state
is adopted verbatim. -/
def restoreFromStorage (settings : TimerSettings) (stored : TimerState)
    (elapsedSeconds : ℤ) (s : TimerHookState) : TimerHookState :=
  if stored.isRunning then
    let remaining := max 0 (stored.timeRemaining - elapsedSeconds)
    if remaining ≤ 0 then
      { s with intervalActive := false }
    else
      { timerState := { stored with timeRemaining := remaining }
        intervalActive := true }
  else
    { s with timerState := stored }

/-- The operations of C9's sequences. `complete` is the direct
`handleTimerCompletion` call sites; `restore` carries the stored state and
the computed elapsed seconds. -/
inductive TimerOp
  | tick
  | complete
  | reset (mode : TimerMode)
  | start
  | pause
  | restore (stored : TimerState) (elapsedSeconds : ℤ)

/-- One `useTimer` operation applied to the hook state. -/
def timerStep (settings : TimerSettings) (s : TimerHookState) : TimerOp → TimerHookState
  | TimerOp.tick => intervalTick settings s
  | TimerOp.complete =>
      { timerState := handleTimerCompletion settings s.timerState.mode
        intervalActive := false }
  | TimerOp.reset mode => resetTimer settings mode
  | TimerOp.start => startTimer settings s
  | TimerOp.pause => pauseTimer s
  | TimerOp.restore stored elapsed => restoreFromStorage settings stored elapsed s

/-- A sequence of `useTimer` operations, first to last. -/
def timerRun (settings : TimerSettings) (s : TimerHookState)
    (ops : List TimerOp) : TimerHookState :=
  ops.foldl (timerStep settings) s

/-- **C8.** `startTimer` while the timer is already running is a no-op (the
hook state, interval included, is returned unchanged — the embedding is a
total function, so no exception is possible on this path), and symmetrically
`pauseTimer` while the timer is not running is a no-op. -/
theorem startTimer_pauseTimer_noop (settings : TimerSettings) (s : TimerHookState) :
    (s.timerState.isRunning = true → startTimer settings s = s)
    ∧ (s.timerState.isRunning = false → pauseTimer s = s) := by
  constructor
  · intro h
    unfold startTimer
    rw [if_pos h]
  · intro h
    unfold pauseTimer
    rw [h]
    rfl

/-- Witness for C8: a concrete running state is unchanged by `startTimer`,
and a concrete paused state is unchanged by `pauseTimer`. -/
theorem startTimer_pauseTimer_noop_witness :
    startTimer ⟨25, 5⟩ ⟨⟨TimerMode.focus, 900, true, none, false⟩, true⟩ =
      ⟨⟨TimerMode.focus, 900, true, none, false⟩, true⟩
    ∧ pauseTimer ⟨⟨TimerMode.breakMode, 60, false, some BreakActivity.game, false⟩, false⟩ =
      ⟨⟨TimerMode.breakMode, 60, false, some BreakActivity.game, false⟩, false⟩ := by
  exact ⟨(startTimer_pauseTimer_noop ⟨25, 5⟩
            ⟨⟨TimerMode.focus, 900, true, none, false⟩, true⟩).1 rfl,
         (startTimer_pauseTimer_noop ⟨25, 5⟩
            ⟨⟨TimerMode.breakMode, 60, false, some BreakActivity.game, false⟩, false⟩).2 rfl⟩

theorem modeDuration_nonneg (settings : TimerSettings)
    (hf : 0 ≤ settings.focusDuration) (hb : 0 ≤ settings.breakDuration)
    (m : TimerMode) : 0 ≤ modeDuration settings m := by
  cases m
  · exact mul_nonneg hf (by norm_num)
  · exact mul_nonneg hb (by norm_num)

theorem timerStep_timeRemaining_nonneg (settings : TimerSettings)
    (s : TimerHookState) (op : TimerOp)
    (hf : 0 ≤ settings.focusDuration) (hb : 0 ≤ settings.breakDuration)
    (h0 : 0 ≤ s.timerState.timeRemaining)
    (hop : ∀ st e, op = TimerOp.restore st e → 0 ≤ st.timeRemaining) :
    0 ≤ (timerStep settings s op).timerState.timeRemaining := by
  cases op with
  | tick =>
    unfold timerStep intervalTick
    by_cases hle : s.timerState.timeRemaining ≤ 1
    · rw [if_pos hle]
      exact modeDuration_nonneg settings hf hb _
    · rw [if_neg hle]
      dsimp only
      push_neg at hle
      linarith
  | complete =>
    exact modeDuration_nonneg settings hf hb _
  | reset mode =>
    exact modeDuration_nonneg settings hf hb _
  | start =>
    unfold timerStep startTimer
    by_cases hrun : s.timerState.isRunning
    · rw [if_pos hrun]
      exact h0
    · rw [if_neg hrun]
      by_cases hz : s.timerState.timeRemaining ≤ 0
      · rw [if_pos hz]
        exact modeDuration_nonneg settings hf hb _
      · rw [if_neg hz]
        exact h0
  | pause =>
    unfold timerStep pauseTimer
    by_cases hrun : !s.timerState.isRunning
    · rw [if_pos hrun]
      exact h0
    · rw [if_neg hrun]
      exact h0
  | restore stored elapsed =>
    show 0 ≤ (restoreFromStorage settings stored elapsed s).timerState.timeRemaining
    unfold restoreFromStorage
    by_cases hrun : stored.isRunning
    · rw [if_pos hrun]
      dsimp only
      by_cases hz : max 0 (stored.timeRemaining - elapsed) ≤ 0
      · rw [if_pos hz]
        exact h0
      · rw [if_neg hz]
        exact le_max_left 0 _
    · rw [if_neg hrun]
      exact hop stored elapsed rfl

theorem timerRun_timeRemaining_nonneg (settings : TimerSettings)
    (ops : List TimerOp) (s : TimerHookState)
    (hf : 0 ≤ settings.focusDuration) (hb : 0 ≤ settings.breakDuration)
    (h0 : 0 ≤ s.timerState.timeRemaining)
    (hrestore : ∀ st e, TimerOp.restore st e ∈ ops → 0 ≤ st.timeRemaining) :
    0 ≤ (timerRun settings s ops).timerState.timeRemaining := by
  induction ops generalizing s with
  | nil => exact h0
  | cons op ops ih =>
    have hstep := timerStep_timeRemaining_nonneg settings s op hf hb h0
      (fun st e heq => hrestore st e (heq ▸ List.mem_cons_self op ops))
    exact ih (timerStep settings s op) hstep
      (fun st e hmem => hrestore st e (List.mem_cons_of_mem op hmem))

/-- **C9.** Non-negativity of `timerState.timeRemaining`: for non-negative
configured durations, any sequence of `useTimer` operations (interval tick,
completion, reset, start, pause, restore-from-storage of a saved — hence
non-negative — state) started from a non-negative state stays non-negative;
the interval callback hands off to `handleTimerCompletion` whenever at most
one second remains instead of decrementing below zero; and the
restore-from-storage path for a running stored state clamps the recomputed
remaining time at zero whatever the stored and elapsed values were. -/
theorem useTimer_timeRemaining_nonneg (settings : TimerSettings)
    (s0 : TimerHookState) (ops : List TimerOp)
    (hf : 0 ≤ settings.focusDuration) (hb : 0 ≤ settings.breakDuration)
    (h0 : 0 ≤ s0.timerState.timeRemaining)
    (hrestore : ∀ st e, TimerOp.restore st e ∈ ops → 0 ≤ st.timeRemaining) :
    0 ≤ (timerRun settings s0 ops).timerState.timeRemaining
    ∧ (s0.timerState.timeRemaining ≤ 1 →
        (intervalTick settings s0).timerState =
          handleTimerCompletion settings s0.timerState.mode)
    ∧ (∀ (st : TimerState) (e : ℤ), st.isRunning = true →
        0 ≤ (restoreFromStorage settings st e s0).timerState.timeRemaining) := by
  refine ⟨timerRun_timeRemaining_nonneg settings ops s0 hf hb h0 hrestore, ?_, ?_⟩
  · intro hle
    unfold intervalTick
    rw [if_pos hle]
  · intro st e hrun
    unfold restoreFromStorage
    rw [if_pos hrun]
    dsimp only
    by_cases hz : max 0 (st.timeRemaining - e) ≤ 0
    · rw [if_pos hz]
      exact h0
    · rw [if_neg hz]
      exact le_max_left 0 _

/-- Witness for C9: a concrete run — the last second ticks over into
completion, a restore of a running saved state is clamped, and the timer is
started and paused — ends with non-negative remaining time, and the one-second
state hands off to completion. -/
theorem useTimer_timeRemaining_nonneg_witness :
    0 ≤ (timerRun ⟨25, 5⟩ ⟨⟨TimerMode.focus, 1, true, none, false⟩, true⟩
          [TimerOp.tick,
           TimerOp.restore ⟨TimerMode.focus, 10, true, none, false⟩ 3,
           TimerOp.start, TimerOp.pause]).timerState.timeRemaining
    ∧ (intervalTick ⟨25, 5⟩
        ⟨⟨TimerMode.focus, 1, true, none, false⟩, true⟩).timerState =
        handleTimerCompletion ⟨25, 5⟩ TimerMode.focus := by
  have h := useTimer_timeRemaining_nonneg ⟨25, 5⟩
    ⟨⟨TimerMode.focus, 1, true, none, false⟩, true⟩
    [TimerOp.tick,
     TimerOp.restore ⟨TimerMode.focus, 10, true, none, false⟩ 3,
     TimerOp.start, TimerOp.pause]
    (by norm_num) (by norm_num) (by norm_num) ?_
  · exact ⟨h.1, h.2.1 (by norm_num)⟩
  · intro st e hmem
    simp only [List.mem_cons, List.not_mem_nil, or_false] at hmem
    rcases hmem with h1 | h1 | h1 | h1
    · exact absurd h1 (by simp)
    · injection h1 with hst he
      rw [hst]
      norm_num
    · exact absurd h1 (by simp)
    · exact absurd h1 (by simp)

/-! ### Break-duration dialog (src/components/BreakDurationDialog.tsx) -/

/-- One user interaction with the dialog, as seen by the `tempDuration`
state.  For a typed change or an input blur the handlers use only
`parseInt` of the current text, which yields an integer or `NaN` (`none`). -/
inductive DialogInteraction
  | inputChange (parsed : Option ℤ)
  | inputBlur (parsed : Option ℤ)
  | increase
  | decrease
deriving DecidableEq, Repr

/-- How one interaction updates `tempDuration` (BreakDurationDialog.tsx
30-65): `handleInputChange` and `handleInputBlur` adopt the parsed value
only when it is a number within `[1, 15]` (blur otherwise resets the text
field, leaving `tempDuration` alone); `increaseDuration` and
`decreaseDuration` step by one only inside that range. -/
def applyInteraction (t : ℚ) : DialogInteraction → ℚ
  | DialogInteraction.inputChange p =>
      match p with
      | some n => if 1 ≤ n ∧ n ≤ 15 then (n : ℚ) else t
      | none => t
  | DialogInteraction.inputBlur p =>
      match p with
      | some n => if 1 ≤ n ∧ n ≤ 15 then (n : ℚ) else t
      | none => t
  | DialogInteraction.increase => if t < 15 then t + 1 else t
  | DialogInteraction.decrease => if 1 < t then t - 1 else t

/-- `handleSave` (BreakDurationDialog.tsx 73-83): the value passed to
`onChangeBreakDuration` is `Math.min(Math.max(1, Number(tempDuration)), 15)`;
`Number` applied to a number is the identity. -/
def handleSave (t : ℚ) : ℚ := min (max 1 t) 15

/-- The `tempDuration` value after a sequence of interactions, starting from
the `breakDuration` prop copied into state at mount/open. -/
def runDialog (t0 : ℚ) (xs : List DialogInteraction) : ℚ :=
  xs.foldl applyInteraction t0

theorem applyInteraction_int (t : ℚ) (x : DialogInteraction)
    (h : ∃ n : ℤ, t = (n : ℚ)) :
    ∃ n : ℤ, applyInteraction t x = (n : ℚ) := by
  obtain ⟨n, rfl⟩ := h
  cases x with
  | inputChange p =>
    cases p with
    | some m =>
      by_cases hm : 1 ≤ m ∧ m ≤ 15
      · exact ⟨m, by simp [applyInteraction, hm]⟩
      · exact ⟨n, by simp [applyInteraction, hm]⟩
    | none => exact ⟨n, rfl⟩
  | inputBlur p =>
    cases p with
    | some m =>
      by_cases hm : 1 ≤ m ∧ m ≤ 15
      · exact ⟨m, by simp [applyInteraction, hm]⟩
      · exact ⟨n, by simp [applyInteraction, hm]⟩
    | none => exact ⟨n, rfl⟩
  | increase =>
    by_cases hlt : (n : ℚ) < 15
    · exact ⟨n + 1, by simp [applyInteraction, hlt]⟩
    · exact ⟨n, by simp [applyInteraction, hlt]⟩
  | decrease =>
    by_cases hlt : (1 : ℚ) < (n : ℚ)
    · exact ⟨n - 1, by simp [applyInteraction, hlt]⟩
    · exact ⟨n, by simp [applyInteraction, hlt]⟩

theorem runDialog_int (xs : List DialogInteraction) (t0 : ℚ)
    (h : ∃ n : ℤ, t0 = (n : ℚ)) :
    ∃ n : ℤ, runDialog t0 xs = (n : ℚ) := by
  induction xs generalizing t0 with
  | nil => exact h
  | cons x xs ih => exact ih (applyInteraction t0 x) (applyInteraction_int t0 x h)

/-- **C10.** For every sequence of user interactions with the dialog (typed
input, increment, decrement) starting from an integer `breakDuration` prop,
the value `handleSave` passes to `onChangeBreakDuration` is an integer
between 1 and 15 inclusive, regardless of what text was typed: the save
handler clamps `tempDuration` into `[1, 15]`, and every interaction keeps
`tempDuration` an integer. -/
theorem handleSave_integer_in_range (t0 : ℚ) (xs : List DialogInteraction)
    (h : ∃ n : ℤ, t0 = (n : ℚ)) :
    1 ≤ handleSave (runDialog t0 xs)
    ∧ handleSave (runDialog t0 xs) ≤ 15
    ∧ ∃ m : ℤ, handleSave (runDialog t0 xs) = (m : ℚ) := by
  refine ⟨le_min (le_max_left 1 _) (by norm_num), min_le_right _ _, ?_⟩
  obtain ⟨n, hn⟩ := runDialog_int xs t0 h
  refine ⟨min (max 1 n) 15, ?_⟩
  rw [handleSave, hn]
  push_cast
  rfl

/-- Witness for C10: starting from the default 5-minute break, the user
types `99` (rejected by the change handler), clicks increment twice, types
garbage (`parseInt` gives `NaN`), blurs, and decrements once; saving passes
the integer 6, which lies in `[1, 15]`. -/
theorem handleSave_integer_in_range_witness :
    handleSave (runDialog 5
      [DialogInteraction.inputChange (some 99), DialogInteraction.increase,
       DialogInteraction.increase, DialogInteraction.inputChange none,
       DialogInteraction.inputBlur none, DialogInteraction.decrease]) = 6
    ∧ 1 ≤ handleSave (runDialog 5
      [DialogInteraction.inputChange (some 99), DialogInteraction.increase,
       DialogInteraction.increase, DialogInteraction.inputChange none,
       DialogInteraction.inputBlur none, DialogInteraction.decrease])
    ∧ handleSave (runDialog 5
      [DialogInteraction.inputChange (some 99), DialogInteraction.increase,
       DialogInteraction.increase, DialogInteraction.inputChange none,
       DialogInteraction.inputBlur none, DialogInteraction.decrease]) ≤ 15 := by
  have h := handleSave_integer_in_range 5
    [DialogInteraction.inputChange (some 99), DialogInteraction.increase,
     DialogInteraction.increase, DialogInteraction.inputChange none,
     DialogInteraction.inputBlur none, DialogInteraction.decrease]
    ⟨5, by norm_num⟩
  refine ⟨?_, h.1, h.2.1⟩
  norm_num [handleSave, runDialog, applyInteraction, List.foldl]
